import Mathlib

/-!
Shallow embedding of the tower-defense simulation core (entities.js, game.js,
config.js) for verification of its natural-language specification.

Modelling conventions:
* JS numbers are modelled as `ℚ`.  None of the verified properties depends on
  binary floating-point rounding.
* JS object identity (`===` comparisons between towers) is modelled by an
  explicit `ref : Nat` field; two towers are "the same object" iff their `ref`
  fields coincide.
* `Math.hypot(dx, dy) = Real.sqrt (dx^2 + dy^2)` is irrational in general, so
  comparisons against it are translated into exact equivalent rational
  comparisons: for any `r`, `hypot dx dy ≤ r ↔ dx^2 + dy^2 ≤ r^2 ∧ 0 ≤ r`
  (because `hypot` is nonnegative and squaring is monotone on nonnegatives),
  and `hypot a - hypot b` has the same sign as `a^2+b^2`-style squared
  differences (square root is strictly monotone), which is all that the sort
  comparator consumes.  Where an actual segment length value is needed
  (`Enemy.moveAlongPath`), the length primitive is a parameter `hyp`; on the
  concrete game path every segment is axis-aligned, where `Math.hypot`
  coincides with the computable `taxicab` function defined below.
* JS `Map` objects (per-enemy status effects) are modelled as association
  lists with `Map` semantics: `mset` overwrites an existing key in place and
  appends a fresh key, `mget` finds the first binding, `mdel` removes a key.
* Optional JS object fields (`stats.dmg`, `stats.range`, ...) are `Option ℚ`;
  JS numeric truthiness (`if (stats.firerate_s)`) is `truthy` below
  (present and nonzero).
-/

namespace TATD

/-- config.js `GameConstants.ENEMY_SPEED_MULTIPLIER`. -/
def ENEMY_SPEED_MULTIPLIER : ℚ := 60

/-- config.js `GameConstants.MAX_DELTA_TIME`. -/
def MAX_DELTA_TIME : ℚ := 1/10

/-- config.js `GameConstants.SELL_REFUND_RATE` (used literally as 0.7 in game.js). -/
def SELL_REFUND_RATE : ℚ := 7/10

/-- JS numeric truthiness of an optional stat field: present and nonzero. -/
def truthy : Option ℚ → Bool
  | some v => decide (v ≠ 0)
  | none => false

/-- Squared distance between two points; `Entity.distanceTo` is its square
root, which is never needed as a value, only inside comparisons. -/
def dist2 (x1 y1 x2 y2 : ℚ) : ℚ := (x1 - x2)^2 + (y1 - y2)^2

/-- entities.js `Entity.isInRange(other, range)`:
`Math.hypot(dx,dy) <= range`, translated to the exactly equivalent rational
comparison `dx^2+dy^2 ≤ range^2 ∧ 0 ≤ range`. -/
def inRangeQ (x1 y1 x2 y2 r : ℚ) : Bool :=
  decide (dist2 x1 y1 x2 y2 ≤ r * r ∧ 0 ≤ r)

/-- `isInRange` against an optional range field: a comparison with JS
`undefined` is false. -/
def inRangeOpt (x1 y1 x2 y2 : ℚ) : Option ℚ → Bool
  | some r => inRangeQ x1 y1 x2 y2 r
  | none => false

/-- config.js path waypoints (`export const path`). -/
def gamePath : List (ℚ × ℚ) :=
  [(-50, 200), (300, 200), (300, 400), (600, 400),
   (600, 100), (900, 100), (900, 500), (1250, 500)]

/-- `|dx| + |dy|`: agrees with `Math.hypot dx dy` whenever one argument is 0,
i.e. on every (axis-aligned) segment of `gamePath`.  Used to instantiate the
abstract length primitive on concrete inputs. -/
def taxicab (dx dy : ℚ) : ℚ := |dx| + |dy|

/-! ## Status effects (entities.js `Enemy.statusEffects`, a JS `Map`) -/

/-- One status-effect record: `{ value, duration }`. -/
structure Effect where
  value : ℚ
  duration : ℚ
deriving DecidableEq, Repr

/-- `Map.get`. -/
def mget (m : List (String × Effect)) (k : String) : Option Effect :=
  (m.find? (fun p => p.1 == k)).map (fun p => p.2)

/-- `Map.set`: overwrite an existing key in place, else append. -/
def mset (m : List (String × Effect)) (k : String) (v : Effect) :
    List (String × Effect) :=
  if (m.find? (fun p => p.1 == k)).isSome then
    m.map (fun p => if p.1 == k then (k, v) else p)
  else
    m ++ [(k, v)]

/-- `Map.delete`. -/
def mdel (m : List (String × Effect)) (k : String) : List (String × Effect) :=
  m.filter (fun p => p.1 != k)

/-- A `Map` holds at most one binding per key. -/
def nodupKeys (m : List (String × Effect)) : Prop :=
  (m.map Prod.fst).Nodup

/-- The speed multiplier contributed by an effect map
(entities.js `recalculateSpeed` body). -/
def slowFactor (m : List (String × Effect)) : ℚ :=
  match mget m "slow" with
  | some eff => 1 - eff.value
  | none => 1

/-! ## Enemy (entities.js) -/

structure Enemy where
  id : String
  x : ℚ
  y : ℚ
  maxHp : ℚ
  hp : ℚ
  baseSpeed : ℚ
  speed : ℚ
  reward : ℚ
  pathIndex : Nat
  distanceAlongSegment : ℚ
  reachedEnd : Bool
  statusEffects : List (String × Effect)
deriving DecidableEq, Repr

/-- entities.js `Enemy.isAlive`. -/
def Enemy.isAlive (e : Enemy) : Bool := decide (0 < e.hp)

/-- entities.js `Enemy.recalculateSpeed`. -/
def recalculateSpeed (e : Enemy) : Enemy :=
  { e with speed := e.baseSpeed * slowFactor e.statusEffects }

/-- entities.js `Enemy.applyStatusEffect(type, value, duration)`. -/
def applyStatusEffect (e : Enemy) (ty : String) (value duration : ℚ) : Enemy :=
  -- Boss immunity to weak slows
  if e.id = "pest_boss" ∧ ty = "slow" ∧ value < 7/20 then e
  else
    match mget e.statusEffects ty with
    | none =>
        recalculateSpeed
          { e with statusEffects := mset e.statusEffects ty ⟨value, duration⟩ }
    | some existing =>
        -- Only apply if stronger or longer lasting
        if existing.value < value ∨ existing.duration < duration then
          recalculateSpeed
            { e with statusEffects := mset e.statusEffects ty ⟨value, duration⟩ }
        else e

/-- entities.js `Enemy.removeStatusEffect`. -/
def removeStatusEffect (e : Enemy) (ty : String) : Enemy :=
  recalculateSpeed { e with statusEffects := mdel e.statusEffects ty }

/-- entities.js `Enemy.updateStatusEffects(deltaTime)`: every duration is
decremented; entries reaching `≤ 0` are removed via `removeStatusEffect`,
whose final `recalculateSpeed` call leaves the speed recomputed from the
surviving map; if nothing is removed the speed field is not touched. -/
def updateStatusEffects (e : Enemy) (dt : ℚ) : Enemy :=
  let dec := e.statusEffects.map fun p => (p.1, Effect.mk p.2.value (p.2.duration - dt))
  let kept := dec.filter fun p => decide (0 < p.2.duration)
  if kept.length = dec.length then { e with statusEffects := dec }
  else recalculateSpeed { e with statusEffects := kept }

/-- Length of path segment `i` (`Math.hypot(dx, dy)` in the source); the
square-root primitive is the parameter `hyp`. -/
def segLength (hyp : ℚ → ℚ → ℚ) (path : List (ℚ × ℚ)) (i : Nat) : ℚ :=
  match path.get? i, path.get? (i+1) with
  | some p, some q => hyp (q.1 - p.1) (q.2 - p.2)
  | _, _ => 0

/-- entities.js `Enemy.moveAlongPath(deltaTime)`. -/
def moveAlongPath (hyp : ℚ → ℚ → ℚ) (path : List (ℚ × ℚ)) (dt : ℚ)
    (e : Enemy) : Enemy :=
  if path.length - 1 ≤ e.pathIndex then { e with reachedEnd := true }
  else
    let len := segLength hyp path e.pathIndex
    let moveDistance := e.speed * dt * ENEMY_SPEED_MULTIPLIER
    let d := e.distanceAlongSegment + moveDistance
    if len ≤ d then
      -- reached the next point: overshoot is discarded
      { e with pathIndex := e.pathIndex + 1
               distanceAlongSegment := 0
               reachedEnd :=
                 if path.length - 1 ≤ e.pathIndex + 1 then true else e.reachedEnd }
    else
      match path.get? e.pathIndex, path.get? (e.pathIndex + 1) with
      | some p, some q =>
          let t := d / len
          { e with distanceAlongSegment := d
                   x := p.1 + (q.1 - p.1) * t
                   y := p.2 + (q.2 - p.2) * t }
      | _, _ => { e with distanceAlongSegment := d }

/-- entities.js `Enemy.update(deltaTime)`. -/
def Enemy.update (hyp : ℚ → ℚ → ℚ) (path : List (ℚ × ℚ)) (dt : ℚ)
    (e : Enemy) : Enemy :=
  if e.reachedEnd || !e.isAlive then e
  else moveAlongPath hyp path dt (updateStatusEffects e dt)

/-- entities.js `Enemy.takeDamage(amount)`. -/
def takeDamage (e : Enemy) (amount : ℚ) : Enemy :=
  { e with hp := max 0 (e.hp - amount) }

/-! ## Tower (entities.js) -/

inductive TowerType where
  | eco
  | single
  | single_heavy
  | aoe
  | support
  | support_sensor
deriving DecidableEq, Repr

/-- On-hit ability payload (`ability: { slow_pct }` in the data). -/
structure Ability where
  slow_pct : ℚ
deriving DecidableEq, Repr

/-- A level's stat block (the fields of data.json consulted by the modelled
operations; absent JS fields are `none`). -/
structure Stats where
  dmg : Option ℚ := none
  firerate_s : Option ℚ := none
  range : Option ℚ := none
  aoe_radius : Option ℚ := none
  buff_firerate_pct : Option ℚ := none
  buff_range_pct : Option ℚ := none
  ability : Option Ability := none
deriving DecidableEq, Repr

structure UpgradeData where
  cost : ℚ
  stats : Stats
deriving DecidableEq, Repr

/-- One entry of `gameData.towers`. -/
structure TowerData where
  cost_place : ℚ
  base : Stats
  upgrades : List UpgradeData
deriving DecidableEq, Repr

/-- `game_settings.infection_mechanic.effect`. -/
structure InfectionEffect where
  firerate_pct : ℚ
  range_pct : ℚ
deriving DecidableEq, Repr

/-- `game_settings.infection_mechanic`. -/
structure InfectionSettings where
  cure_clicks_required : Nat
  effect : InfectionEffect
deriving DecidableEq, Repr

/-- entities.js `this.infection = { cureClicks, cureRequired }`. -/
structure Infection where
  cureClicks : Nat
  cureRequired : Nat
deriving DecidableEq, Repr

structure Tower where
  /-- models JS object identity: `tower === this` is `tower.ref = this.ref` -/
  ref : Nat
  /-- `this.id = towerId` (the tower-kind string, also the damage-stats key) -/
  id : String
  x : ℚ
  y : ℚ
  type : TowerType
  towerData : TowerData
  settings : InfectionSettings
  level : Nat
  totalCost : ℚ
  cooldown : ℚ
  infection : Option Infection
  baseStats : Stats
  buffedStats : Stats
  stats : Stats
deriving DecidableEq, Repr

/-- The level's stat source in `applyStats`:
`level === 0 ? towerData.base : towerData.upgrades[level - 1]`
(an out-of-range JS index spreads to an empty object).  For `level > 0` the
upgrade entry's `cost` key is also spread into `baseStats` in the source; it
is inert there and not modelled. -/
def statsOfLevel (td : TowerData) (level : Nat) : Stats :=
  if level = 0 then td.base
  else
    match td.upgrades.get? (level - 1) with
    | some u => u.stats
    | none => {}

/-- Multiply a stat field by a multiplier, guarded by JS truthiness
(`if (stats.firerate_s) stats.firerate_s *= m`). -/
def mulIfTruthy (o : Option ℚ) (m : ℚ) : Option ℚ :=
  match o with
  | some v => if v = 0 then some v else some (v * m)
  | none => none

/-- One iteration of the `allTowers.forEach` of entities.js
`Tower.calculateBuffedStats`, accumulating `(firerateMultiplier,
rangeMultiplier)`.  The receiving tower enters through the fields the loop
body reads from `this`: its object identity (`tref`, for `tower === this`)
and its position (`tx`, `tyy`, for `this.isInRange`). -/
def buffStep (tref : Nat) (tx tyy : ℚ) (acc : ℚ × ℚ) (s : Tower) : ℚ × ℚ :=
  if s.ref = tref ∨ s.type ≠ TowerType.support then acc
  else
    match s.baseStats.range with
    | none => acc
    | some r =>
        if inRangeQ tx tyy s.x s.y r then
          let fm := match s.baseStats.buff_firerate_pct with
            | some p => if p = 0 then acc.1 else acc.1 * (1 - p / 100)
            | none => acc.1
          let rm := match s.baseStats.buff_range_pct with
            | some p => if p = 0 then acc.2 else acc.2 * (1 + p / 100)
            | none => acc.2
          (fm, rm)
        else acc

/-- The body of entities.js `Tower.calculateBuffedStats(allTowers)`,
expressed over the fields it reads from `this` (`type`, `ref`, position,
`baseStats`). -/
def calcBuffedCore (ty : TowerType) (tref : Nat) (tx tyy : ℚ) (base : Stats)
    (allTowers : List Tower) : Stats :=
  if ty = TowerType.support ∨ ty = TowerType.support_sensor then base
  else
    let ms := allTowers.foldl (buffStep tref tx tyy) (1, 1)
    { base with
        firerate_s := mulIfTruthy base.firerate_s ms.1
        range := mulIfTruthy base.range ms.2 }

/-- entities.js `Tower.calculateBuffedStats(allTowers)` (reads
`this.baseStats`, which `applyStats` has just refreshed). -/
def calculateBuffedStats (t : Tower) (allTowers : List Tower) : Stats :=
  calcBuffedCore t.type t.ref t.x t.y t.baseStats allTowers

/-- The body of entities.js `Tower.applyInfectionDebuff(stats)`, expressed
over the fields it reads from `this` (`infection` and the configured
debuff). -/
def applyInfectionDebuffCore (inf : Option Infection)
    (cfg : InfectionSettings) (s : Stats) : Stats :=
  if inf.isNone then s
  else
    { s with
        firerate_s :=
          mulIfTruthy s.firerate_s (1 + |cfg.effect.firerate_pct| / 100)
        range := mulIfTruthy s.range (1 + cfg.effect.range_pct / 100) }

/-- entities.js `Tower.applyInfectionDebuff(stats)`. -/
def applyInfectionDebuff (t : Tower) (s : Stats) : Stats :=
  applyInfectionDebuffCore t.infection t.settings s

/-- entities.js `Tower.applyStats(allTowers = [])`. -/
def applyStats (t : Tower) (allTowers : List Tower) : Tower :=
  let base := statsOfLevel t.towerData t.level
  let t1 := { t with baseStats := base }
  let buffed := calculateBuffedStats t1 allTowers
  let st := if t1.infection.isSome then applyInfectionDebuff t1 buffed else buffed
  { t1 with buffedStats := buffed, stats := st }

/-- The `Tower` constructor (stats initialised by `this.applyStats()`,
i.e. with the default empty `allTowers`). -/
def mkTower (ref : Nat) (x y : ℚ) (id : String) (type : TowerType)
    (td : TowerData) (settings : InfectionSettings) : Tower :=
  applyStats
    { ref := ref, id := id, x := x, y := y, type := type, towerData := td
      settings := settings, level := 0, totalCost := td.cost_place
      cooldown := 0, infection := none
      baseStats := {}, buffedStats := {}, stats := {} } []

/-- entities.js `Tower.upgrade(allTowers)` (identity when already at max
level, where the source returns `false`). -/
def upgrade (t : Tower) (allTowers : List Tower) : Tower :=
  if t.towerData.upgrades.length ≤ t.level then t
  else
    match t.towerData.upgrades.get? t.level with
    | some u =>
        applyStats
          { t with totalCost := t.totalCost + u.cost, level := t.level + 1 }
          allTowers
    | none => t

/-- entities.js `Tower.infect()`: note that the final `this.applyStats()`
call passes no argument, so the recompute runs with the default empty
`allTowers` list. -/
def infect (t : Tower) : Tower :=
  if t.type = TowerType.support_sensor then t -- Sensors can't be infected
  else
    applyStats
      { t with infection := some ⟨0, t.settings.cure_clicks_required⟩ } []

/-- entities.js `Tower.cure(gameState)`: clears the infection, recomputes
stats against `gameState.towers` and increments
`gameState.gameStats.infectionsCured`. -/
def cure (t : Tower) (allTowers : List Tower) (infectionsCured : Nat) :
    Tower × Nat :=
  if t.infection.isNone then (t, infectionsCured)
  else (applyStats { t with infection := none } allTowers, infectionsCured + 1)

/-- entities.js `Tower.handleClickCure(gameState)`. -/
def handleClickCure (t : Tower) (allTowers : List Tower)
    (infectionsCured : Nat) : Tower × Nat :=
  match t.infection with
  | none => (t, infectionsCured)
  | some inf =>
      let t1 := { t with infection := some ⟨inf.cureClicks + 1, inf.cureRequired⟩ }
      if inf.cureRequired ≤ inf.cureClicks + 1 then
        cure t1 allTowers infectionsCured
      else (t1, infectionsCured)

/-- One cure click as a step function on (tower, infectionsCured). -/
def cureStep (allTowers : List Tower) (p : Tower × Nat) : Tower × Nat :=
  handleClickCure p.1 allTowers p.2

/-- entities.js `Tower.canAttack()`. -/
def canAttack (t : Tower) : Bool :=
  truthy t.stats.dmg && truthy t.stats.firerate_s && truthy t.stats.range

/-- entities.js `Tower.findTargets(enemies)`. -/
def findTargets (t : Tower) (enemies : List Enemy) : List Enemy :=
  enemies.filter fun e => e.isAlive && inRangeOpt t.x t.y e.x e.y t.stats.range

/-- The comparator of entities.js `Tower.selectTarget`.  The third key is
`this.distanceTo(a) - this.distanceTo(b)` in the source; the sort consumes
only its sign, and `sqrt` is strictly monotone on nonnegatives, so the
squared-distance difference below has the same sign. -/
def towerCmp (t : Tower) (a b : Enemy) : ℚ :=
  if a.pathIndex ≠ b.pathIndex then (b.pathIndex : ℚ) - (a.pathIndex : ℚ)
  else if a.hp ≠ b.hp then b.hp - a.hp
  else dist2 t.x t.y a.x a.y - dist2 t.x t.y b.x b.y

/-- entities.js `Tower.selectTarget(targets)`: `targets.sort(cmp)[0]`.
`Array.prototype.sort` with a consistent comparator returns a permutation
sorted with respect to it; it is modelled by insertion sort. -/
def selectTarget (t : Tower) (targets : List Enemy) : Option Enemy :=
  (List.insertionSort (fun a b => towerCmp t a b ≤ 0) targets).head?

/-! ## Projectile (entities.js) -/

structure Projectile where
  x : ℚ
  y : ℚ
  damage : ℚ
  towerId : String
  towerType : TowerType
  target : Option Enemy
  targetPos : Option (ℚ × ℚ)
  aoeRadius : ℚ
  ability : Option Ability
  active : Bool
  lifetime : ℚ
deriving DecidableEq, Repr

/-- entities.js `Tower.createProjectile(target)` combined with the
`Projectile` constructor's defaulting (`data.target || null`,
`data.aoeRadius || 0`, `data.ability || null`).  `damage` is
`this.stats.dmg`; `createProjectile` is only reached through `attack` after
`canAttack` established that `dmg` is present, so the `Option` is projected
with default 0. -/
def createProjectile (t : Tower) (target : Enemy) : Projectile :=
  if t.type = TowerType.aoe then
    { x := t.x, y := t.y, damage := t.stats.dmg.getD 0, towerId := t.id
      towerType := t.type, target := none
      targetPos := some (target.x, target.y)
      aoeRadius :=
        match t.stats.aoe_radius with
        | some v => if v = 0 then 50 else v -- `this.stats.aoe_radius || 50`
        | none => 50
      ability := none, active := true, lifetime := 0 }
  else
    { x := t.x, y := t.y, damage := t.stats.dmg.getD 0, towerId := t.id
      towerType := t.type, target := some target, targetPos := none
      aoeRadius := 0, ability := t.stats.ability, active := true, lifetime := 0 }

/-- entities.js `Projectile.explode(gameState)`: damages every living enemy
within the blast radius (inclusive), tallies `gameStats.damageDealt` for the
owning tower id if that key exists, deactivates the projectile, and applies
no status effect. -/
def explode (p : Projectile) (enemies : List Enemy)
    (damageDealt : List (String × ℚ)) :
    List Enemy × List (String × ℚ) × Projectile :=
  let isTarget := fun (e : Enemy) =>
    e.isAlive && inRangeQ p.x p.y e.x e.y p.aoeRadius
  let enemies2 := enemies.map fun e => if isTarget e then takeDamage e p.damage else e
  let n : ℚ := ((enemies.filter isTarget).length : ℚ)
  let dd :=
    if (damageDealt.find? (fun q => q.1 == p.towerId)).isSome then
      damageDealt.map fun q =>
        if q.1 == p.towerId then (q.1, q.2 + n * p.damage) else q
    else damageDealt
  (enemies2, dd, { p with active := false })

/-! ## Game-level state (game.js) -/

/-- The slice of game.js `GameState` reached by the modelled commands. -/
structure GameState where
  money : ℚ
  moneyEarned : ℚ
  towers : List Tower
  /-- `selectedTower` as a reference (`ref`) -/
  selectedTower : Option Nat
  infectionsCured : Nat
deriving DecidableEq, Repr

/-- game.js `GameState.earnMoney(amount)`. -/
def earnMoney (gs : GameState) (amount : ℚ) : GameState :=
  { gs with money := gs.money + amount, moneyEarned := gs.moneyEarned + amount }

/-- `this.gameState.towers.forEach(t => t.applyStats(this.gameState.towers))`:
the JS `forEach` updates each element in place, so later elements are
recomputed against an array whose earlier elements are already refreshed. -/
def applyAllGo (done todo : List Tower) : List Tower :=
  match todo with
  | [] => done
  | t :: rest => applyAllGo (done ++ [applyStats t (done ++ t :: rest)]) rest

/-- Full stats recompute across a tower list. -/
def applyAllStats (ts : List Tower) : List Tower := applyAllGo [] ts

/-- `indexOf` + `splice(index, 1)`: remove the first occurrence of the given
object reference (no change when absent, as `indexOf` returns -1). -/
def removeFirstRef (r : Nat) : List Tower → List Tower
  | [] => []
  | t :: rest => if t.ref = r then rest else t :: removeFirstRef r rest

/-- game.js `GameManager.sellTower(tower)`. -/
def sellTower (gs : GameState) (t : Tower) : GameState :=
  let sellValue : ℚ := (⌊t.totalCost * SELL_REFUND_RATE⌋ : ℤ)
  let gs1 := earnMoney gs sellValue
  let remaining := removeFirstRef t.ref gs1.towers
  let sel := if gs1.selectedTower = some t.ref then none else gs1.selectedTower
  { gs1 with towers := applyAllStats remaining, selectedTower := sel }

/-- game.js `InfectionManager.infectRandomTower` eligibility filter; the
manager picks one member uniformly at random and calls `infect` on it. -/
def eligibleForInfection (ts : List Tower) : List Tower :=
  ts.filter fun t => t.infection.isNone && decide (t.type ≠ TowerType.support_sensor)

/-! ## Wave scheduling (game.js `WaveManager`) -/

/-- One entry of `gameData.enemies` (fields the scheduler consumes;
`name`/`color` are presentational only). -/
structure EnemyData where
  id : String
  hp : ℚ
  speed : ℚ
  reward : ℚ
deriving DecidableEq, Repr

/-- One composition group of a wave. -/
structure WaveGroup where
  enemy_id : String
  count : Nat
  interval_ms : ℚ
deriving DecidableEq, Repr

structure WaveData where
  composition : List WaveGroup
deriving DecidableEq, Repr

structure GameData where
  enemies : List EnemyData
  waves : List WaveData
deriving DecidableEq, Repr

/-- One queued spawn: `{ enemyData, spawnTime }`. -/
structure SpawnEntry where
  enemyData : EnemyData
  spawnTime : ℚ
deriving DecidableEq, Repr

/-- The entries one composition group pushes in `startWave` (an unknown
`enemy_id` contributes nothing). -/
def groupQueue (gd : GameData) (g : WaveGroup) : List SpawnEntry :=
  match gd.enemies.find? (fun e => e.id == g.enemy_id) with
  | none => []
  | some ed =>
      (List.range g.count).map fun (i : ℕ) => ⟨ed, (i : ℚ) * (g.interval_ms / 1000)⟩

/-- game.js `WaveManager.startWave(waveNumber)`: `none` when the wave does
not exist (the source returns `false`), otherwise the freshly built spawn
queue (groups concatenated in composition order). -/
def startWave (gd : GameData) (waveNumber : Nat) : Option (List SpawnEntry) :=
  match gd.waves.get? (waveNumber - 1) with
  | none => none
  | some waveData => some (waveData.composition.flatMap (groupQueue gd))

structure WMState where
  spawnQueue : List SpawnEntry
  spawnTimer : ℚ
deriving DecidableEq, Repr

/-- The `while` drain loop of `WaveManager.update`: shift entries off the
head while the head's `spawnTime` has elapsed. -/
def drainQ (timer : ℚ) : List SpawnEntry → List SpawnEntry × List EnemyData
  | [] => ([], [])
  | h :: rest =>
      if h.spawnTime ≤ timer then
        let r := drainQ timer rest
        (r.1, h.enemyData :: r.2)
      else (h :: rest, [])

/-- game.js `WaveManager.update(deltaTime)`; returns the new state together
with the enemy definitions instantiated this tick.  With an empty queue the
method returns before advancing the timer. -/
def wmUpdate (dt : ℚ) (st : WMState) : WMState × List EnemyData :=
  if st.spawnQueue = [] then (st, [])
  else
    let timer := st.spawnTimer + dt
    let r := drainQ timer st.spawnQueue
    (⟨r.1, timer⟩, r.2)

/-! ## Concrete sample data (used by witnesses and counterexamples) -/

/-- Sample `game_settings.infection_mechanic`: 4 cure clicks, debuff of
-50% firerate and -30% range. -/
def settings0 : InfectionSettings := ⟨4, ⟨-50, -30⟩⟩

def tdSupport : TowerData :=
  { cost_place := 100
    base := { range := some 100, buff_firerate_pct := some 20
              buff_range_pct := some 10 }
    upgrades := [] }

def tdSingle : TowerData :=
  { cost_place := 100
    base := { dmg := some 10, firerate_s := some 1, range := some 120
              ability := some ⟨30⟩ }
    upgrades := [⟨30, { dmg := some 15, firerate_s := some 1, range := some 130 }⟩] }

def tdAoe : TowerData :=
  { cost_place := 120
    base := { dmg := some 8, firerate_s := some 2, range := some 110
              aoe_radius := some 50, ability := some ⟨30⟩ }
    upgrades := [] }

def sSup : Tower := mkTower 1 0 0 "harvester" TowerType.support tdSupport settings0

def tAtk : Tower := mkTower 2 50 0 "drone" TowerType.single tdSingle settings0

def tAoe : Tower := mkTower 3 10 10 "sprinkler" TowerType.aoe tdAoe settings0

/-! ## C1 -/

/-- C1: the claim says every topology change — in particular an infection
started by `InfectionManager.infectRandomTower` — triggers a full stats
recompute across all towers, so an infected tower's stats still include the
support buffs it was receiving.  The code contradicts this: `Tower.infect`
calls `this.applyStats()` with the default empty tower list.  Concretely: a
single-type tower (base firerate 1 s) standing 50 px from a support tower
(range 100, firerate buff 20%) has buffed firerate 0.8 s and is eligible for
infection; after `infect` its buffed stats collapse back to its base stats
and its effective firerate becomes 1 × 1.5 = 1.5 s instead of the
0.8 × 1.5 = 1.2 s the claim requires. -/
theorem c1_infect_drops_support_buffs :
    (applyStats tAtk [sSup, tAtk]).stats.firerate_s = some (4/5) ∧
    applyStats tAtk [sSup, tAtk] ∈
      eligibleForInfection [sSup, applyStats tAtk [sSup, tAtk]] ∧
    (infect (applyStats tAtk [sSup, tAtk])).buffedStats
      = (infect (applyStats tAtk [sSup, tAtk])).baseStats ∧
    (infect (applyStats tAtk [sSup, tAtk])).stats.firerate_s = some (3/2) ∧
    some ((4/5) * (3/2) : ℚ)
      ≠ (infect (applyStats tAtk [sSup, tAtk])).stats.firerate_s := by
  refine ⟨?_, ?_, ?_, ?_, ?_⟩ <;>
    norm_num +decide [tAtk, sSup, mkTower, applyStats, calculateBuffedStats,
      calcBuffedCore, buffStep, statsOfLevel, tdSingle, tdSupport, settings0,
      applyInfectionDebuff, applyInfectionDebuffCore, infect,
      eligibleForInfection, inRangeQ, dist2, mulIfTruthy, truthy]

/-! ## C10 -/

/-- C10: for every enemy that has `reachedEnd = true` or `hp = 0` and every
`dt`, `Enemy.update dt` leaves every field of the enemy unchanged — the
early-return guard freezes position, path progress, speed, hp and the
status-effect map. -/
theorem c10_dead_or_finished_enemy_frozen (hyp : ℚ → ℚ → ℚ)
    (path : List (ℚ × ℚ)) (dt : ℚ) (e : Enemy)
    (h : e.reachedEnd = true ∨ e.hp = 0) :
    Enemy.update hyp path dt e = e := by
  unfold Enemy.update
  rcases h with h | h
  · simp [h]
  · simp [Enemy.isAlive, h]

/-- A dead enemy (hp = 0) with a pending slow effect is left untouched by
`Enemy.update`. -/
def eDead : Enemy :=
  { id := "aphid", x := 0, y := 200, maxHp := 5, hp := 0, baseSpeed := 1
    speed := 1, reward := 2, pathIndex := 1, distanceAlongSegment := 3
    reachedEnd := false, statusEffects := [("slow", ⟨1/4, 2⟩)] }

theorem c10_witness : Enemy.update taxicab gamePath (1/60) eDead = eDead :=
  c10_dead_or_finished_enemy_frozen taxicab gamePath (1/60) eDead (Or.inr rfl)

/-! ## Map-semantics lemmas for the status-effect store -/

theorem mget_mapUpdate (k : String) (v : Effect) :
    ∀ m : List (String × Effect),
      (m.find? (fun p => p.1 == k)).isSome = true →
      mget (m.map (fun p => if p.1 == k then (k, v) else p)) k = some v := by
  intro m
  induction m with
  | nil => intro h; simp [List.find?] at h
  | cons p rest ih =>
      intro h
      by_cases hp : p.1 == k
      · simp [mget, List.find?, hp]
      · have h2 : (rest.find? (fun q => q.1 == k)).isSome = true := by
          simpa [List.find?, hp] using h
        simpa [mget, List.find?, hp] using ih h2

theorem mget_mapUpdate_ne (k k' : String) (v : Effect) (hne : k' ≠ k) :
    ∀ m : List (String × Effect),
      mget (m.map (fun p => if p.1 == k then (k, v) else p)) k' = mget m k' := by
  intro m
  induction m with
  | nil => rfl
  | cons p rest ih =>
      by_cases hp : p.1 == k
      · have hpk : p.1 = k := by simpa using hp
        have hk1 : (k == k') = false := by
          simp [Ne.symm hne]
        have hk2 : (p.1 == k') = false := by
          simp [hpk, Ne.symm hne]
        simpa [mget, List.find?, hp, hk1, hk2] using ih
      · by_cases hq : p.1 == k'
        · simp [mget, List.find?, hp, hq]
        · simpa [mget, List.find?, hp, hq] using ih

theorem mget_append_single (k : String) (v : Effect) :
    ∀ m : List (String × Effect),
      m.find? (fun p => p.1 == k) = none →
      mget (m ++ [(k, v)]) k = some v := by
  intro m
  induction m with
  | nil => intro _; simp [mget, List.find?]
  | cons p rest ih =>
      intro h
      have hp : (p.1 == k) = false := by
        cases hpk : (p.1 == k) with
        | false => rfl
        | true => rw [List.find?] at h; rw [hpk] at h; exact absurd h (by simp)
      have h2 : rest.find? (fun q => q.1 == k) = none := by
        simpa [List.find?, hp] using h
      simpa [mget, List.find?, hp] using ih h2

theorem mget_append_ne (k k' : String) (v : Effect) (hne : k' ≠ k) :
    ∀ m : List (String × Effect),
      mget (m ++ [(k, v)]) k' = mget m k' := by
  intro m
  have hk : (k == k') = false := by simp [Ne.symm hne]
  induction m with
  | nil => simp [mget, List.find?, hk]
  | cons p rest ih =>
      by_cases hq : p.1 == k'
      · simp [mget, List.find?, hq]
      · simpa [mget, List.find?, hq] using ih

/-- `Map.set` of an existing key yields the bound value on lookup. -/
theorem mget_mset_self (m : List (String × Effect)) (k : String) (v : Effect) :
    mget (mset m k v) k = some v := by
  unfold mset
  split
  · next h => exact mget_mapUpdate k v m h
  · next h =>
      exact mget_append_single k v m (Option.not_isSome_iff_eq_none.mp (by simpa using h))

/-- `Map.set` leaves other keys untouched. -/
theorem mget_mset_ne (m : List (String × Effect)) (k : String) (v : Effect)
    (k' : String) (hne : k' ≠ k) : mget (mset m k v) k' = mget m k' := by
  unfold mset
  split
  · exact mget_mapUpdate_ne k k' v hne m
  · exact mget_append_ne k k' v hne m

theorem keys_mapUpdate (k : String) (v : Effect) :
    ∀ m : List (String × Effect),
      (m.map (fun p => if p.1 == k then (k, v) else p)).map Prod.fst
        = m.map Prod.fst := by
  intro m
  rw [List.map_map]
  apply List.map_congr_left
  intro p _
  by_cases hp : p.1 == k
  · have hpk : p.1 = k := by simpa using hp
    simp [hp, hpk]
  · have hpk : p.1 ≠ k := by simpa using hp
    simp [hpk]

/-- `Map.set` preserves key uniqueness. -/
theorem nodupKeys_mset (m : List (String × Effect)) (k : String) (v : Effect)
    (h : nodupKeys m) : nodupKeys (mset m k v) := by
  unfold mset
  split
  · next _ => rw [nodupKeys, keys_mapUpdate]; exact h
  · next hfind =>
      have hnone : m.find? (fun p => p.1 == k) = none :=
        Option.not_isSome_iff_eq_none.mp (by simpa using hfind)
      have hkey : k ∉ m.map Prod.fst := by
        intro hk
        rcases List.mem_map.mp hk with ⟨p, hp, hfst⟩
        have := List.find?_eq_none.mp hnone p hp
        simp [hfst] at this
      unfold nodupKeys at h ⊢
      simp only [List.map_append, List.map_cons, List.map_nil]
      exact List.Nodup.append h (List.nodup_singleton k)
        (by simpa [List.disjoint_singleton] using hkey)

/-! ## C5 -/

/-- C5 (amended): for every enemy, `applyStatusEffect` keeps at most one
record per effect type, and — except that a `pest_boss` enemy silently drops
a `slow` application whose value is below 0.35 — replaces an existing record
of the same type exactly when the new value is strictly greater or the new
duration is strictly greater, recomputing the speed from the resulting map;
otherwise the enemy is left completely unchanged. -/
theorem c5_amended_status_effect_stacking (e : Enemy) (ty : String) (v d : ℚ)
    (hnd : nodupKeys e.statusEffects) :
    nodupKeys (applyStatusEffect e ty v d).statusEffects ∧
    ((e.id = "pest_boss" ∧ ty = "slow" ∧ v < 7/20) →
      applyStatusEffect e ty v d = e) ∧
    (¬(e.id = "pest_boss" ∧ ty = "slow" ∧ v < 7/20) →
      (mget e.statusEffects ty = none →
        mget (applyStatusEffect e ty v d).statusEffects ty = some ⟨v, d⟩ ∧
        (∀ k, k ≠ ty →
          mget (applyStatusEffect e ty v d).statusEffects k
            = mget e.statusEffects k) ∧
        (applyStatusEffect e ty v d).speed
          = e.baseSpeed * slowFactor (applyStatusEffect e ty v d).statusEffects) ∧
      (∀ ex, mget e.statusEffects ty = some ex →
        ((ex.value < v ∨ ex.duration < d) →
          mget (applyStatusEffect e ty v d).statusEffects ty = some ⟨v, d⟩ ∧
          (∀ k, k ≠ ty →
            mget (applyStatusEffect e ty v d).statusEffects k
              = mget e.statusEffects k) ∧
          (applyStatusEffect e ty v d).speed
            = e.baseSpeed * slowFactor (applyStatusEffect e ty v d).statusEffects) ∧
        (¬(ex.value < v ∨ ex.duration < d) → applyStatusEffect e ty v d = e))) := by
  by_cases hb : e.id = "pest_boss" ∧ ty = "slow" ∧ v < 7/20
  · have hval : applyStatusEffect e ty v d = e := by
      unfold applyStatusEffect; rw [if_pos hb]
    rw [hval]
    exact ⟨hnd, fun _ => rfl, fun hnb => absurd hb hnb⟩
  · rcases hm : mget e.statusEffects ty with _ | ex0
    · have hval : applyStatusEffect e ty v d
          = recalculateSpeed
              { e with statusEffects := mset e.statusEffects ty ⟨v, d⟩ } := by
        unfold applyStatusEffect; rw [if_neg hb, hm]
      rw [hval]
      refine ⟨nodupKeys_mset _ _ _ hnd, fun hbb => absurd hbb hb, fun _ => ?_⟩
      refine ⟨fun _ => ⟨mget_mset_self _ _ _,
        fun k hk => mget_mset_ne _ _ _ _ hk, rfl⟩, fun ex hex => ?_⟩
      simp at hex
    · by_cases hc : ex0.value < v ∨ ex0.duration < d
      · have hval : applyStatusEffect e ty v d
            = recalculateSpeed
                { e with statusEffects := mset e.statusEffects ty ⟨v, d⟩ } := by
          unfold applyStatusEffect; rw [if_neg hb, hm]; exact if_pos hc
        rw [hval]
        refine ⟨nodupKeys_mset _ _ _ hnd, fun hbb => absurd hbb hb, fun _ => ?_⟩
        refine ⟨fun hnone => ?_, fun ex hex => ?_⟩
        · simp at hnone
        · have hexx : ex = ex0 := (Option.some.inj hex).symm
          refine ⟨fun _ => ⟨mget_mset_self _ _ _,
            fun k hk => mget_mset_ne _ _ _ _ hk, rfl⟩, fun hnc => ?_⟩
          rw [hexx] at hnc; exact absurd hc hnc
      · have hval : applyStatusEffect e ty v d = e := by
          unfold applyStatusEffect; rw [if_neg hb, hm]; exact if_neg hc
        rw [hval]
        refine ⟨hnd, fun hbb => absurd hbb hb, fun _ => ?_⟩
        refine ⟨fun hnone => ?_, fun ex hex => ?_⟩
        · simp at hnone
        · have hexx : ex = ex0 := (Option.some.inj hex).symm
          refine ⟨fun hcc => ?_, fun _ => rfl⟩
          rw [hexx] at hcc; exact absurd hcc hc

/-- A boss enemy already carrying a weaker, shorter slow. -/
def bossSlowed : Enemy :=
  { id := "pest_boss", x := 0, y := 200, maxHp := 400, hp := 400
    baseSpeed := 1/2, speed := (1/2) * (1 - 1/5), reward := 50, pathIndex := 0
    distanceAlongSegment := 0, reachedEnd := false
    statusEffects := [("slow", ⟨1/5, 1⟩)] }

/-- C5 counterexample to the claim as stated: the boss carries a slow record
`{value 0.2, duration 1}` and receives a slow application with strictly
greater value (0.3) and strictly greater duration (5); the claim demands a
replacement, but the code's boss-immunity guard (slow value < 0.35) drops
the application and the enemy is left completely unchanged. -/
theorem c5_counterexample :
    mget bossSlowed.statusEffects "slow" = some ⟨1/5, 1⟩ ∧
    (1/5 : ℚ) < 3/10 ∧ (1 : ℚ) < 5 ∧
    applyStatusEffect bossSlowed "slow" (3/10) 5 = bossSlowed := by
  refine ⟨by simp [mget, bossSlowed, List.find?], by norm_num, by norm_num, ?_⟩
  unfold applyStatusEffect
  rw [if_pos ⟨rfl, rfl, by norm_num⟩]

/-- A regular (non-boss) enemy carrying a weaker, shorter slow. -/
def eSlowed : Enemy :=
  { id := "aphid", x := 0, y := 200, maxHp := 5, hp := 5, baseSpeed := 1
    speed := 1 * (1 - 1/5), reward := 2, pathIndex := 0
    distanceAlongSegment := 0, reachedEnd := false
    statusEffects := [("slow", ⟨1/5, 1⟩)] }

theorem c5_witness :
    nodupKeys (applyStatusEffect eSlowed "slow" (3/10) 5).statusEffects ∧
    mget (applyStatusEffect eSlowed "slow" (3/10) 5).statusEffects "slow"
      = some ⟨3/10, 5⟩ := by
  have h := c5_amended_status_effect_stacking eSlowed "slow" (3/10) 5
    (by simp [nodupKeys, eSlowed])
  refine ⟨h.1, ?_⟩
  have hnb : ¬(eSlowed.id = "pest_boss" ∧ "slow" = "slow" ∧ (3/10 : ℚ) < 7/20) := by
    simp [eSlowed]
  have hmg : mget eSlowed.statusEffects "slow" = some ⟨1/5, 1⟩ := by
    simp [mget, eSlowed, List.find?]
  exact (((h.2.2 hnb).2 ⟨1/5, 1⟩ hmg).1 (by norm_num)).1

/-! ## C2 -/

def edA : EnemyData := ⟨"a", 5, 1, 1⟩

def edB : EnemyData := ⟨"b", 5, 1, 1⟩

/-- A wave with two composition groups; the second group's offsets restart
at 0 while the first group's tail offset is 1. -/
def gdWave : GameData :=
  { enemies := [edA, edB]
    waves := [⟨[⟨"a", 2, 1000⟩, ⟨"b", 1, 1000⟩]⟩] }

def qWave : List SpawnEntry := [⟨edA, 0⟩, ⟨edA, 1⟩, ⟨edB, 0⟩]

/-- C2 counterexample to the claim as stated: with two composition groups,
`startWave` builds the queue `[(a,0), (a,1), (b,0)]`, whose offsets
`[0, 1, 0]` are NOT sorted ascending; and `update` with dt = 0.5 drains only
the first `a` even though the queued entry `(b, 0)` has offset 0 ≤ 0.5 — it
stays in the queue because it sits behind the not-yet-due `(a, 1)`. -/
theorem c2_counterexample :
    startWave gdWave 1 = some qWave ∧
    qWave.map SpawnEntry.spawnTime = [0, 1, 0] ∧
    ¬ List.Sorted (· ≤ ·) ([0, 1, 0] : List ℚ) ∧
    (wmUpdate (1/2) ⟨qWave, 0⟩).2 = [edA] ∧
    (⟨edB, 0⟩ : SpawnEntry) ∈ (wmUpdate (1/2) ⟨qWave, 0⟩).1.spawnQueue ∧
    (0 : ℚ) ≤ 0 + 1/2 := by
  refine ⟨?_, ?_, ?_, ?_, ?_, by norm_num⟩
  · norm_num +decide [startWave, gdWave, groupQueue, edA, edB, qWave,
      List.range_succ]
  · norm_num [qWave, edA, edB]
  · intro h
    have h2 := List.rel_of_sorted_cons h.of_cons (0:ℚ) (by simp)
    norm_num at h2
  · norm_num +decide [wmUpdate, drainQ, qWave, edA, edB]
  · norm_num +decide [wmUpdate, drainQ, qWave, edA, edB]

/-- The `while` drain loop removes exactly the maximal elapsed prefix, in
queue order. -/
theorem drainQ_eq (timer : ℚ) :
    ∀ q : List SpawnEntry,
      drainQ timer q =
        (q.dropWhile (fun en => decide (en.spawnTime ≤ timer)),
         (q.takeWhile (fun en => decide (en.spawnTime ≤ timer))).map
           SpawnEntry.enemyData) := by
  intro q
  induction q with
  | nil => rfl
  | cons h rest ih =>
      by_cases hh : h.spawnTime ≤ timer
      · simp [drainQ, hh, List.dropWhile_cons, List.takeWhile_cons, ih]
      · simp [drainQ, hh, List.dropWhile_cons, List.takeWhile_cons]

/-- C2 (amended): `startWave` builds the spawn queue as the in-order
concatenation of each composition group's entries at offsets
`i * (interval_ms / 1000)`; offsets are ascending within each group (for a
nonnegative interval), but the whole queue is not globally sorted across
groups.  Each tick `update` advances the clock by dt and drains, in queue
order, exactly the maximal prefix of entries whose offsets have elapsed —
all due entries at the head are instantiated within one tick, but an elapsed
entry sitting behind a not-yet-due entry of an earlier group is not. -/
theorem c2_amended_wave_schedule (gd : GameData) (w : Nat)
    (q : List SpawnEntry) (st : WMState) (dt : ℚ)
    (hq : startWave gd w = some q) (hne : st.spawnQueue ≠ []) :
    (∃ waveData, gd.waves.get? (w - 1) = some waveData ∧
      q = waveData.composition.flatMap (groupQueue gd) ∧
      ∀ g ∈ waveData.composition, 0 ≤ g.interval_ms →
        List.Sorted (fun a b => a.spawnTime ≤ b.spawnTime) (groupQueue gd g)) ∧
    wmUpdate dt st =
      (⟨st.spawnQueue.dropWhile
          (fun en => decide (en.spawnTime ≤ st.spawnTimer + dt)),
        st.spawnTimer + dt⟩,
       (st.spawnQueue.takeWhile
          (fun en => decide (en.spawnTime ≤ st.spawnTimer + dt))).map
         SpawnEntry.enemyData) := by
  constructor
  · unfold startWave at hq
    cases hwd : gd.waves.get? (w - 1) with
    | none => rw [hwd] at hq; simp at hq
    | some wd =>
        rw [hwd] at hq
        simp only [Option.some.injEq] at hq
        refine ⟨wd, rfl, hq.symm, ?_⟩
        intro g _ hg0
        unfold groupQueue
        cases gd.enemies.find? (fun e => e.id == g.enemy_id) with
        | none => exact List.sorted_nil
        | some ed =>
            have hc : (0:ℚ) ≤ g.interval_ms / 1000 := by positivity
            refine List.Pairwise.map
              (fun i : Nat =>
                (⟨ed, (i:ℚ) * (g.interval_ms / 1000)⟩ : SpawnEntry))
              ?_ (List.pairwise_lt_range g.count)
            intro a b hab
            show (a:ℚ) * (g.interval_ms / 1000) ≤ (b:ℚ) * (g.interval_ms / 1000)
            exact mul_le_mul_of_nonneg_right (by exact_mod_cast le_of_lt hab) hc
  · unfold wmUpdate
    rw [if_neg hne]
    simp only [drainQ_eq]

theorem c2_witness :
    wmUpdate (1/2) ⟨qWave, 0⟩ =
      (⟨qWave.dropWhile (fun en => decide (en.spawnTime ≤ 0 + 1/2)), 0 + 1/2⟩,
       (qWave.takeWhile (fun en => decide (en.spawnTime ≤ 0 + 1/2))).map
         SpawnEntry.enemyData) :=
  (c2_amended_wave_schedule gdWave 1 qWave ⟨qWave, 0⟩ (1/2)
    (by norm_num +decide [startWave, gdWave, groupQueue, edA, edB, qWave,
      List.range_succ])
    (by simp [qWave])).2

/-! ## C3 -/

/-- The targeting priority of `Tower.selectTarget` as a relation:
`priorityGe t m e` says `m` is at least as good a target as `e` — greatest
`pathIndex` first, then greatest `hp`, then smallest distance to the
tower. -/
def priorityGe (t : Tower) (m e : Enemy) : Prop :=
  e.pathIndex < m.pathIndex ∨
  (m.pathIndex = e.pathIndex ∧
    (e.hp < m.hp ∨ (m.hp = e.hp ∧
      dist2 t.x t.y m.x m.y ≤ dist2 t.x t.y e.x e.y)))

theorem priorityGe_refl (t : Tower) (a : Enemy) : priorityGe t a a :=
  Or.inr ⟨rfl, Or.inr ⟨rfl, le_refl _⟩⟩

/-- The comparator is nonpositive exactly when the first argument has
priority at least the second. -/
theorem towerCmp_le_iff (t : Tower) (a b : Enemy) :
    towerCmp t a b ≤ 0 ↔ priorityGe t a b := by
  unfold towerCmp priorityGe
  by_cases h1 : a.pathIndex = b.pathIndex
  · by_cases h2 : a.hp = b.hp
    · rw [if_neg (not_not_intro h1), if_neg (not_not_intro h2), sub_nonpos]
      simp [h1, h2]
    · rw [if_neg (not_not_intro h1), if_pos h2, sub_nonpos]
      simp only [h1, h2, lt_self_iff_false, false_or, false_and, or_false,
        true_and]
      exact ⟨fun hle => lt_of_le_of_ne hle (Ne.symm h2), le_of_lt⟩
  · rw [if_pos h1, sub_nonpos, Nat.cast_le]
    simp only [h1, false_and, or_false]
    exact ⟨fun hle => lt_of_le_of_ne hle (Ne.symm h1), le_of_lt⟩

theorem priorityGe_total (t : Tower) (a b : Enemy) :
    priorityGe t a b ∨ priorityGe t b a := by
  unfold priorityGe
  rcases lt_trichotomy a.pathIndex b.pathIndex with h | h | h
  · exact Or.inr (Or.inl h)
  · rcases lt_trichotomy a.hp b.hp with h2 | h2 | h2
    · exact Or.inr (Or.inr ⟨h.symm, Or.inl h2⟩)
    · rcases le_total (dist2 t.x t.y a.x a.y) (dist2 t.x t.y b.x b.y) with h3 | h3
      · exact Or.inl (Or.inr ⟨h, Or.inr ⟨h2, h3⟩⟩)
      · exact Or.inr (Or.inr ⟨h.symm, Or.inr ⟨h2.symm, h3⟩⟩)
    · exact Or.inl (Or.inr ⟨h, Or.inl h2⟩)
  · exact Or.inl (Or.inl h)

theorem priorityGe_trans (t : Tower) (a b c : Enemy) :
    priorityGe t a b → priorityGe t b c → priorityGe t a c := by
  unfold priorityGe
  rintro (h1 | ⟨e1, h1⟩) (h2 | ⟨e2, h2⟩)
  · exact Or.inl (by omega)
  · exact Or.inl (by omega)
  · exact Or.inl (by omega)
  · refine Or.inr ⟨by omega, ?_⟩
    rcases h1 with h1 | ⟨f1, g1⟩
    · rcases h2 with h2 | ⟨f2, g2⟩
      · exact Or.inl (by linarith)
      · exact Or.inl (by rw [← f2]; exact h1)
    · rcases h2 with h2 | ⟨f2, g2⟩
      · exact Or.inl (by rw [f1]; exact h2)
      · exact Or.inr ⟨f1.trans f2, g1.trans g2⟩

/-- C3: for every offense-capable tower with elapsed cooldown and every
enemy set whose in-range living candidate set is nonempty, `selectTarget`
returns an element of the candidate set that is maximal under the fixed
total priority order (greatest `pathIndex`, then greatest `hp`, then
smallest tower distance); the candidate set is exactly the living enemies
within the tower's current range (inclusive boundary), and whenever one
candidate is strictly above all others the selection is exactly that enemy
(the selection is a pure function of its inputs, hence deterministic). -/
theorem c3_target_selection (tw : Tower) (enemies : List Enemy)
    (hcool : tw.cooldown ≤ 0) (hcan : canAttack tw = true)
    (hne : findTargets tw enemies ≠ []) :
    ∃ m, selectTarget tw (findTargets tw enemies) = some m ∧
      m ∈ findTargets tw enemies ∧
      (∀ e ∈ findTargets tw enemies, priorityGe tw m e) ∧
      (∀ e, e ∈ findTargets tw enemies ↔
        e ∈ enemies ∧ e.isAlive = true ∧
        inRangeOpt tw.x tw.y e.x e.y tw.stats.range = true) ∧
      (∀ m2 ∈ findTargets tw enemies,
        (∀ e ∈ findTargets tw enemies, e ≠ m2 → ¬ priorityGe tw e m2) →
          m = m2) := by
  haveI ht : IsTotal Enemy (fun a b => towerCmp tw a b ≤ 0) := by
    constructor
    intro a b
    rcases priorityGe_total tw a b with h | h
    · exact Or.inl ((towerCmp_le_iff tw a b).mpr h)
    · exact Or.inr ((towerCmp_le_iff tw b a).mpr h)
  haveI htr : IsTrans Enemy (fun a b => towerCmp tw a b ≤ 0) := by
    constructor
    intro a b c hab hbc
    exact (towerCmp_le_iff tw a c).mpr
      (priorityGe_trans tw a b c ((towerCmp_le_iff tw a b).mp hab)
        ((towerCmp_le_iff tw b c).mp hbc))
  have hs := List.sorted_insertionSort
    (fun a b => towerCmp tw a b ≤ 0) (findTargets tw enemies)
  have hperm := List.perm_insertionSort
    (fun a b => towerCmp tw a b ≤ 0) (findTargets tw enemies)
  cases hsort : List.insertionSort
      (fun a b => towerCmp tw a b ≤ 0) (findTargets tw enemies) with
  | nil =>
      rw [hsort] at hperm
      exact absurd hperm.symm.eq_nil hne
  | cons m rest =>
      have hmem : m ∈ findTargets tw enemies := by
        refine hperm.mem_iff.mp ?_
        rw [hsort]
        exact List.mem_cons_self m rest
      have hmax : ∀ e ∈ findTargets tw enemies, priorityGe tw m e := by
        intro e he
        have he2 : e ∈ m :: rest := by
          rw [← hsort]
          exact hperm.mem_iff.mpr he
        rcases List.mem_cons.mp he2 with rfl | he3
        · exact priorityGe_refl tw e
        · rw [hsort] at hs
          exact (towerCmp_le_iff tw m e).mp (List.rel_of_sorted_cons hs e he3)
      refine ⟨m, ?_, hmem, hmax, ?_, ?_⟩
      · unfold selectTarget
        rw [hsort]
        rfl
      · intro e
        unfold findTargets
        simp [List.mem_filter, Bool.and_eq_true]
      · intro m2 hm2 hstrict
        by_contra hneq
        exact hstrict m hmem (fun hmm => hneq hmm) (hmax m2 hm2)

/-- Two living enemies in range of `tAtk`; `eFar` is further along the
path. -/
def eFar : Enemy :=
  { id := "aphid", x := 60, y := 0, maxHp := 5, hp := 5, baseSpeed := 1
    speed := 1, reward := 2, pathIndex := 2, distanceAlongSegment := 0
    reachedEnd := false, statusEffects := [] }

def eNear : Enemy :=
  { id := "aphid", x := 55, y := 0, maxHp := 5, hp := 4, baseSpeed := 1
    speed := 1, reward := 2, pathIndex := 1, distanceAlongSegment := 0
    reachedEnd := false, statusEffects := [] }

theorem c3_witness :
    findTargets tAtk [eFar, eNear] ≠ [] ∧
    ∃ m, selectTarget tAtk (findTargets tAtk [eFar, eNear]) = some m ∧
      m ∈ findTargets tAtk [eFar, eNear] ∧
      ∀ e ∈ findTargets tAtk [eFar, eNear], priorityGe tAtk m e := by
  have hne : findTargets tAtk [eFar, eNear] ≠ [] := by
    norm_num +decide [findTargets, tAtk, mkTower, applyStats,
      calculateBuffedStats, calcBuffedCore, buffStep, statsOfLevel, tdSingle, settings0,
      mulIfTruthy, inRangeOpt, inRangeQ, dist2, eFar, eNear, Enemy.isAlive]
  obtain ⟨m, h1, h2, h3, _⟩ := c3_target_selection tAtk [eFar, eNear]
    (by norm_num [tAtk, mkTower, applyStats])
    (by norm_num +decide [canAttack, truthy, tAtk, mkTower, applyStats,
      calculateBuffedStats, calcBuffedCore, buffStep, statsOfLevel, tdSingle, settings0,
      mulIfTruthy])
    hne
  exact ⟨hne, m, h1, h2, h3⟩

/-! ## C6 -/

/-- C6: for a nonnegative speed and dt in (0, MAX_DELTA_TIME], one movement
update never decreases the (pathIndex, distanceAlongSegment) pair
lexicographically; a segment-boundary crossing advances `pathIndex` by one
and resets `distanceAlongSegment` to 0 (overshoot discarded); whenever the
resulting `pathIndex` is at the last waypoint, `reachedEnd` is set; and an
enemy already at the last waypoint only gets `reachedEnd` set, advancing no
further. -/
theorem c6_path_progress_monotone (hyp : ℚ → ℚ → ℚ) (path : List (ℚ × ℚ))
    (dt : ℚ) (e : Enemy) (hspeed : 0 ≤ e.speed) (hdt0 : 0 < dt)
    (hdtM : dt ≤ MAX_DELTA_TIME) :
    (e.pathIndex < (moveAlongPath hyp path dt e).pathIndex ∨
      ((moveAlongPath hyp path dt e).pathIndex = e.pathIndex ∧
        e.distanceAlongSegment ≤
          (moveAlongPath hyp path dt e).distanceAlongSegment)) ∧
    (e.pathIndex < path.length - 1 →
      segLength hyp path e.pathIndex ≤
        e.distanceAlongSegment + e.speed * dt * ENEMY_SPEED_MULTIPLIER →
      (moveAlongPath hyp path dt e).pathIndex = e.pathIndex + 1 ∧
      (moveAlongPath hyp path dt e).distanceAlongSegment = 0) ∧
    (path.length - 1 ≤ (moveAlongPath hyp path dt e).pathIndex →
      (moveAlongPath hyp path dt e).reachedEnd = true) ∧
    (path.length - 1 ≤ e.pathIndex →
      moveAlongPath hyp path dt e = { e with reachedEnd := true }) := by
  have hmove : 0 ≤ e.speed * dt * ENEMY_SPEED_MULTIPLIER := by
    have h60 : (0:ℚ) ≤ ENEMY_SPEED_MULTIPLIER := by norm_num [ENEMY_SPEED_MULTIPLIER]
    exact mul_nonneg (mul_nonneg hspeed (le_of_lt hdt0)) h60
  simp only [moveAlongPath]
  by_cases hend : path.length - 1 ≤ e.pathIndex
  · rw [if_pos hend]
    exact ⟨Or.inr ⟨rfl, le_refl _⟩, fun hlt _ => absurd hend (by omega),
      fun _ => rfl, fun _ => rfl⟩
  · rw [if_neg hend]
    by_cases hcross : segLength hyp path e.pathIndex ≤
        e.distanceAlongSegment + e.speed * dt * ENEMY_SPEED_MULTIPLIER
    · rw [if_pos hcross]
      refine ⟨Or.inl (Nat.lt_succ_self _), fun _ _ => ⟨rfl, rfl⟩,
        fun hge => if_pos hge, fun h => absurd h hend⟩
    · rw [if_neg hcross]
      rcases hg1 : path.get? e.pathIndex with _ | p <;>
        rcases hg2 : path.get? (e.pathIndex + 1) with _ | q <;>
        exact ⟨Or.inr ⟨rfl, by linarith⟩, fun _ hc => absurd hc hcross,
          fun h => absurd h hend, fun h => absurd h hend⟩

/-- A live enemy mid-way along the first (350 px long, axis-aligned) path
segment; `taxicab` agrees with `Math.hypot` there. -/
def eMove : Enemy :=
  { id := "aphid", x := 250, y := 200, maxHp := 5, hp := 5, baseSpeed := 1
    speed := 1, reward := 2, pathIndex := 0, distanceAlongSegment := 300
    reachedEnd := false, statusEffects := [] }

theorem c6_witness :
    eMove.pathIndex < (moveAlongPath taxicab gamePath (1/20) eMove).pathIndex ∨
      ((moveAlongPath taxicab gamePath (1/20) eMove).pathIndex = eMove.pathIndex ∧
        eMove.distanceAlongSegment ≤
          (moveAlongPath taxicab gamePath (1/20) eMove).distanceAlongSegment) :=
  (c6_path_progress_monotone taxicab gamePath (1/20) eMove
    (by norm_num [eMove]) (by norm_num) (by norm_num [MAX_DELTA_TIME])).1

/-! ## C4 -/

/-- A support tower `s` qualifies as a buff source for the tower at
(`tref`, `tx`, `tyy`): it is a different object, of support type, and the
target lies within the support's own unbuffed (`baseStats`) range. -/
def qualifies (tref : Nat) (tx tyy : ℚ) (s : Tower) : Bool :=
  decide (s.ref ≠ tref) && decide (s.type = TowerType.support) &&
    inRangeOpt tx tyy s.x s.y s.baseStats.range

/-- The firerate factor a qualifying support contributes: `1 − buffPct/100`
(1 when the pct field is absent or zero — the code skips a falsy field,
which multiplies by 1 in effect). -/
def firMul (s : Tower) : ℚ :=
  match s.baseStats.buff_firerate_pct with
  | some p => if p = 0 then 1 else 1 - p / 100
  | none => 1

/-- The range factor a qualifying support contributes: `1 + buffPct/100`. -/
def rngMul (s : Tower) : ℚ :=
  match s.baseStats.buff_range_pct with
  | some p => if p = 0 then 1 else 1 + p / 100
  | none => 1

theorem buffStep_eq (tref : Nat) (tx tyy : ℚ) (acc : ℚ × ℚ) (s : Tower) :
    buffStep tref tx tyy acc s =
      if qualifies tref tx tyy s then (acc.1 * firMul s, acc.2 * rngMul s)
      else acc := by
  by_cases h1 : s.ref = tref
  · simp [buffStep, qualifies, h1]
  · by_cases h2 : s.type = TowerType.support
    · cases hr : s.baseStats.range with
      | none => simp [buffStep, qualifies, inRangeOpt, h1, h2, hr]
      | some r =>
          by_cases h3 : inRangeQ tx tyy s.x s.y r = true
          · have hq : qualifies tref tx tyy s = true := by
              simp [qualifies, inRangeOpt, h1, h2, hr, h3]
            rw [if_pos hq]
            simp only [buffStep, hr]
            rw [if_neg (show ¬(s.ref = tref ∨ s.type ≠ TowerType.support) by
              simp [h1, h2]), if_pos h3, Prod.mk.injEq]
            constructor
            · cases hf : s.baseStats.buff_firerate_pct with
              | none => simp [firMul, hf]
              | some p => by_cases hp : p = 0 <;> simp [firMul, hf, hp]
            · cases hg : s.baseStats.buff_range_pct with
              | none => simp [rngMul, hg]
              | some p => by_cases hp : p = 0 <;> simp [rngMul, hg, hp]
          · have hq : ¬ (qualifies tref tx tyy s = true) := by
              simp [qualifies, inRangeOpt, h1, h2, hr, h3]
            rw [if_neg hq]
            simp only [buffStep, hr]
            rw [if_neg (show ¬(s.ref = tref ∨ s.type ≠ TowerType.support) by
              simp [h1, h2]), if_neg h3]
    · simp [buffStep, qualifies, h1, h2]

/-- The forEach accumulation is the product over the qualifying supports,
in either component. -/
theorem buffProd (tref : Nat) (tx tyy : ℚ) :
    ∀ (l : List Tower) (acc : ℚ × ℚ),
      l.foldl (buffStep tref tx tyy) acc =
        (acc.1 * ((l.filter (qualifies tref tx tyy)).map firMul).prod,
         acc.2 * ((l.filter (qualifies tref tx tyy)).map rngMul).prod) := by
  intro l
  induction l with
  | nil => intro acc; simp
  | cons s rest ih =>
      intro acc
      rw [List.foldl_cons, buffStep_eq]
      by_cases hq : qualifies tref tx tyy s = true
      · rw [if_pos hq, ih]
        simp [List.filter_cons, hq, mul_assoc]
      · rw [if_neg hq, ih]
        simp [List.filter_cons, hq]

/-- C4: for a non-support tower the buffed firerate and range are the base
values multiplied by `Π (1 − buffPct/100)` resp. `Π (1 + buffPct/100)` over
the qualifying supports (those whose own unbuffed range contains the
tower); the combination is order-independent (invariant under permutation
of the tower list); support and support-sensor towers receive no buffs; and
invoking the recompute (`applyStats`) twice consecutively with an unchanged
tower set yields an identical stat snapshot. -/
theorem c4_buff_combination (t : Tower) (l l2 : List Tower)
    (hperm : l.Perm l2) :
    ((t.type ≠ TowerType.support ∧ t.type ≠ TowerType.support_sensor) →
      (calculateBuffedStats t l).firerate_s
        = mulIfTruthy t.baseStats.firerate_s
            (((l.filter (qualifies t.ref t.x t.y)).map firMul).prod) ∧
      (calculateBuffedStats t l).range
        = mulIfTruthy t.baseStats.range
            (((l.filter (qualifies t.ref t.x t.y)).map rngMul).prod)) ∧
    calculateBuffedStats t l = calculateBuffedStats t l2 ∧
    ((t.type = TowerType.support ∨ t.type = TowerType.support_sensor) →
      calculateBuffedStats t l = t.baseStats) ∧
    applyStats (applyStats t l) l = applyStats t l := by
  refine ⟨?_, ?_, ?_, ?_⟩
  · intro hns
    unfold calculateBuffedStats calcBuffedCore
    rw [if_neg (not_or.mpr ⟨hns.1, hns.2⟩), buffProd]
    exact ⟨by simp, by simp⟩
  · unfold calculateBuffedStats calcBuffedCore
    by_cases hty : t.type = TowerType.support ∨ t.type = TowerType.support_sensor
    · rw [if_pos hty, if_pos hty]
    · rw [if_neg hty, if_neg hty, buffProd, buffProd]
      have h1 := ((hperm.filter (qualifies t.ref t.x t.y)).map firMul).prod_eq
      have h2 := ((hperm.filter (qualifies t.ref t.x t.y)).map rngMul).prod_eq
      rw [h1, h2]
  · intro hty
    unfold calculateBuffedStats calcBuffedCore
    rw [if_pos hty]
  · rfl

/-- A second support tower, also within buffing distance of `tAtk`. -/
def sSup2 : Tower :=
  mkTower 4 80 0 "harvester" TowerType.support tdSupport settings0

theorem c4_witness :
    calculateBuffedStats tAtk [sSup, sSup2]
      = calculateBuffedStats tAtk [sSup2, sSup] ∧
    applyStats (applyStats tAtk [sSup, sSup2]) [sSup, sSup2]
      = applyStats tAtk [sSup, sSup2] ∧
    (calculateBuffedStats tAtk [sSup, sSup2]).firerate_s = some (16/25) := by
  have h := c4_buff_combination tAtk [sSup, sSup2] [sSup2, sSup]
    (List.Perm.swap sSup2 sSup [])
  refine ⟨h.2.1, h.2.2.2, ?_⟩
  norm_num +decide [calculateBuffedStats, calcBuffedCore, buffStep, tAtk,
    sSup, sSup2, mkTower, applyStats, statsOfLevel, tdSingle, tdSupport,
    settings0, mulIfTruthy, inRangeQ, dist2]

/-! ## C7 -/

/-- The fields of a tower that the buff scan reads from OTHER towers:
identity, type, position and unbuffed stats.  Two towers with the same
`buffKey` are interchangeable as buff sources. -/
def buffKey (s : Tower) : Nat × TowerType × ℚ × ℚ × Stats :=
  (s.ref, s.type, s.x, s.y, s.baseStats)

theorem buffStep_congr (tref : Nat) (tx tyy : ℚ) (acc : ℚ × ℚ)
    (s s2 : Tower) (h : buffKey s = buffKey s2) :
    buffStep tref tx tyy acc s = buffStep tref tx tyy acc s2 := by
  have h1 : s.ref = s2.ref := congrArg (fun p => p.1) h
  have h2 : s.type = s2.type := congrArg (fun p => p.2.1) h
  have h3 : s.x = s2.x := congrArg (fun p => p.2.2.1) h
  have h4 : s.y = s2.y := congrArg (fun p => p.2.2.2.1) h
  have h5 : s.baseStats = s2.baseStats := congrArg (fun p => p.2.2.2.2) h
  unfold buffStep
  rw [h1, h2, h3, h4, h5]

theorem foldl_buffStep_congr (tref : Nat) (tx tyy : ℚ) :
    ∀ (l l2 : List Tower), l.map buffKey = l2.map buffKey →
      ∀ acc, l.foldl (buffStep tref tx tyy) acc
        = l2.foldl (buffStep tref tx tyy) acc := by
  intro l
  induction l with
  | nil =>
      intro l2 h acc
      cases l2 with
      | nil => rfl
      | cons s2 rest2 => simp at h
  | cons s rest ih =>
      intro l2 h acc
      cases l2 with
      | nil => simp at h
      | cons s2 rest2 =>
          simp only [List.map_cons, List.cons.injEq] at h
          rw [List.foldl_cons, List.foldl_cons,
            buffStep_congr tref tx tyy acc s s2 h.1]
          exact ih rest2 h.2 _

theorem calcBuffedCore_congr_list (ty : TowerType) (tref : Nat) (tx tyy : ℚ)
    (base : Stats) {l l2 : List Tower} (h : l.map buffKey = l2.map buffKey) :
    calcBuffedCore ty tref tx tyy base l
      = calcBuffedCore ty tref tx tyy base l2 := by
  unfold calcBuffedCore
  by_cases hty : ty = TowerType.support ∨ ty = TowerType.support_sensor
  · rw [if_pos hty, if_pos hty]
  · rw [if_neg hty, if_neg hty, foldl_buffStep_congr tref tx tyy l l2 h]

/-- `applyStats` consults the other towers only through their `buffKey`
fields. -/
theorem applyStats_congr_list (t : Tower) {l l2 : List Tower}
    (h : l.map buffKey = l2.map buffKey) :
    applyStats t l = applyStats t l2 := by
  simp only [applyStats, calculateBuffedStats]
  rw [calcBuffedCore_congr_list _ _ _ _ _ h]

/-- Recomputing never changes how a tower acts as a buff source, provided
its `baseStats` were already the ones derived from its level (which every
`applyStats` call establishes). -/
theorem buffKey_applyStats (t : Tower) (l : List Tower)
    (h : t.baseStats = statsOfLevel t.towerData t.level) :
    buffKey (applyStats t l) = buffKey t := by
  unfold buffKey applyStats
  simp [h]

/-- Under the always-established invariant that every tower's `baseStats`
match its level, the sequential in-place `forEach` recompute equals the
simultaneous recompute of every tower against the same list. -/
theorem applyAllGo_eq :
    ∀ (todo done : List Tower),
      (∀ u ∈ done ++ todo, u.baseStats = statsOfLevel u.towerData u.level) →
      applyAllGo done todo
        = done ++ todo.map (fun u => applyStats u (done ++ todo)) := by
  intro todo
  induction todo with
  | nil => intro done h; simp [applyAllGo]
  | cons t rest ih =>
      intro done h
      have hinv2 : ∀ u ∈ (done ++ [applyStats t (done ++ t :: rest)]) ++ rest,
          u.baseStats = statsOfLevel u.towerData u.level := by
        intro u hu
        rcases List.mem_append.mp hu with hu | hu
        · rcases List.mem_append.mp hu with hu | hu
          · exact h u (by simp [hu])
          · rcases List.mem_singleton.mp hu with rfl
            rfl
        · exact h u (by simp [hu])
      have hkeys : ((done ++ [applyStats t (done ++ t :: rest)]) ++ rest).map
          buffKey = (done ++ t :: rest).map buffKey := by
        have hbk : buffKey (applyStats t (done ++ t :: rest)) = buffKey t :=
          buffKey_applyStats _ _ (h t (by simp))
        simp [hbk]
      simp only [applyAllGo]
      rw [ih (done ++ [applyStats t (done ++ t :: rest)]) hinv2]
      rw [List.map_congr_left
        (fun u _ => applyStats_congr_list u hkeys)]
      simp

theorem removeFirstRef_subset (r : Nat) :
    ∀ ts : List Tower, ∀ u ∈ removeFirstRef r ts, u ∈ ts := by
  intro ts
  induction ts with
  | nil => intro u hu; simp [removeFirstRef] at hu
  | cons t rest ih =>
      intro u hu
      unfold removeFirstRef at hu
      by_cases ht : t.ref = r
      · rw [if_pos ht] at hu
        exact List.mem_cons_of_mem t hu
      · rw [if_neg ht] at hu
        rcases List.mem_cons.mp hu with rfl | hu
        · exact List.mem_cons_self _ _
        · exact List.mem_cons_of_mem t (ih u hu)

theorem removeFirstRef_ref_ne (r : Nat) :
    ∀ ts : List Tower, (ts.map Tower.ref).Nodup →
      ∀ u ∈ removeFirstRef r ts, u.ref ≠ r := by
  intro ts
  induction ts with
  | nil => intro _ u hu; simp [removeFirstRef] at hu
  | cons t rest ih =>
      intro hnd u hu
      simp only [List.map_cons, List.nodup_cons] at hnd
      unfold removeFirstRef at hu
      by_cases ht : t.ref = r
      · rw [if_pos ht] at hu
        intro hur
        exact hnd.1 (by
          rw [ht]
          rw [← hur]
          exact List.mem_map_of_mem Tower.ref hu)
      · rw [if_neg ht] at hu
        rcases List.mem_cons.mp hu with rfl | hu
        · exact ht
        · exact ih hnd.2 u hu

/-- C7: selling a placed tower credits exactly
`floor(totalCost × 0.7)` money, removes the tower from the active set (no
remaining tower is that object, so it is never again consulted as a buff
source or combat participant), and immediately recomputes the stats of
every remaining tower against the remaining set. -/
theorem c7_sell_tower (gs : GameState) (t : Tower) (hmem : t ∈ gs.towers)
    (hnd : (gs.towers.map Tower.ref).Nodup)
    (hinv : ∀ u ∈ gs.towers, u.baseStats = statsOfLevel u.towerData u.level) :
    (sellTower gs t).money
      = gs.money + ((⌊t.totalCost * SELL_REFUND_RATE⌋ : ℤ) : ℚ) ∧
    (∀ u ∈ (sellTower gs t).towers, u.ref ≠ t.ref) ∧
    (sellTower gs t).towers
      = (removeFirstRef t.ref gs.towers).map
          (fun u => applyStats u (removeFirstRef t.ref gs.towers)) := by
  have h3 : (sellTower gs t).towers
      = (removeFirstRef t.ref gs.towers).map
          (fun u => applyStats u (removeFirstRef t.ref gs.towers)) := by
    show applyAllStats (removeFirstRef t.ref gs.towers) = _
    unfold applyAllStats
    have := applyAllGo_eq (removeFirstRef t.ref gs.towers) []
      (by
        intro u hu
        simp only [List.nil_append] at hu
        exact hinv u (removeFirstRef_subset t.ref gs.towers u hu))
    simpa using this
  refine ⟨rfl, ?_, h3⟩
  intro u hu
  rw [h3] at hu
  rcases List.mem_map.mp hu with ⟨u0, hu0, rfl⟩
  exact removeFirstRef_ref_ne t.ref gs.towers hnd u0 hu0

/-- `tAtk` upgraded once: totalCost 100 + 30 = 130. -/
def tSold : Tower := upgrade tAtk []

def gs0 : GameState :=
  { money := 500, moneyEarned := 500, towers := [tSold, sSup]
    selectedTower := none, infectionsCured := 0 }

theorem c7_witness :
    (sellTower gs0 tSold).money = 591 ∧
    ∀ u ∈ (sellTower gs0 tSold).towers, u.ref ≠ tSold.ref := by
  have h := c7_sell_tower gs0 tSold
    (by simp [gs0])
    (by
      have : gs0.towers.map Tower.ref = [2, 1] := rfl
      rw [this]
      decide)
    (by
      intro u hu
      simp only [gs0, List.mem_cons, List.not_mem_nil, or_false] at hu
      rcases hu with rfl | rfl <;> rfl)
  refine ⟨?_, h.2.1⟩
  rw [h.1]
  have hcost : tSold.totalCost = 130 := by
    norm_num +decide [tSold, tAtk, upgrade, mkTower, applyStats, tdSingle]
  rw [hcost]
  norm_num [SELL_REFUND_RATE, gs0]

/-! ## C8 -/

/-- C8: starting from a fresh infection with `cureRequired = N ≥ 1`, the
k-th cure click (k < N) leaves the infection present with `cureClicks = k`;
the N-th click clears the record, recomputes the tower's stats against the
tower list and bumps the cured counter; one further click is a no-op, as is
any cure click on a tower with no infection record. -/
theorem c8_cure_clicks (t : Tower) (ts : List Tower) (c N : Nat)
    (hinf : t.infection = some ⟨0, N⟩) (hN : 1 ≤ N) :
    (∀ k, k < N → (cureStep ts)^[k] (t, c)
        = ({ t with infection := some ⟨k, N⟩ }, c)) ∧
    (cureStep ts)^[N] (t, c)
      = (applyStats { t with infection := none } ts, c + 1) ∧
    cureStep ts ((cureStep ts)^[N] (t, c)) = (cureStep ts)^[N] (t, c) ∧
    (∀ u cc, u.infection = none → handleClickCure u ts cc = (u, cc)) := by
  have hnoop : ∀ u cc, u.infection = none → handleClickCure u ts cc = (u, cc) := by
    intro u cc hu
    unfold handleClickCure
    simp only [hu]
  have hstep : ∀ k, k + 1 < N →
      cureStep ts ({ t with infection := some ⟨k, N⟩ }, c)
        = ({ t with infection := some ⟨k + 1, N⟩ }, c) := by
    intro k hk
    unfold cureStep handleClickCure
    simp only []
    rw [if_neg (by omega)]
  have hiter : ∀ k, k < N →
      (cureStep ts)^[k] (t, c) = ({ t with infection := some ⟨k, N⟩ }, c) := by
    intro k
    induction k with
    | zero =>
        intro _
        simp only [Function.iterate_zero, id_eq]
        obtain ⟨r, i, x, y, ty, td, st, lv, tc, cd, inf, bs, bf, s1⟩ := t
        simp only at hinf
        rw [hinf]
    | succ k ih =>
        intro hk
        rw [Function.iterate_succ_apply', ih (by omega), hstep k hk]
  have hfin : (cureStep ts)^[N] (t, c)
      = (applyStats { t with infection := none } ts, c + 1) := by
    obtain ⟨N2, rfl⟩ : ∃ N2, N = N2 + 1 := ⟨N - 1, by omega⟩
    rw [Function.iterate_succ_apply', hiter N2 (by omega)]
    unfold cureStep handleClickCure
    simp only []
    rw [if_pos (by omega)]
    unfold cure
    rw [if_neg (by simp)]
  refine ⟨hiter, hfin, ?_, hnoop⟩
  rw [hfin]
  exact hnoop _ _ rfl

/-- `tAtk` infected: `cureRequired` comes from `settings0` (4 clicks). -/
def tInf : Tower := infect tAtk

theorem c8_witness :
    ((cureStep [sSup, tInf])^[2] (tInf, 0)).1.infection = some ⟨2, 4⟩ ∧
    ((cureStep [sSup, tInf])^[4] (tInf, 0)).1.infection = none ∧
    ((cureStep [sSup, tInf])^[4] (tInf, 0)).2 = 1 := by
  have h := c8_cure_clicks tInf [sSup, tInf] 0 4 rfl (by norm_num)
  refine ⟨?_, ?_, ?_⟩
  · rw [h.1 2 (by norm_num)]
  · rw [h.2.1]
    rfl
  · rw [h.2.1]

/-! ## C9 -/

theorem statusEffects_damage_ite (c : Bool) (e : Enemy) (d : ℚ) :
    (if c = true then takeDamage e d else e).statusEffects
      = e.statusEffects := by
  by_cases hc : c = true <;> simp [hc, takeDamage]

theorem speed_damage_ite (c : Bool) (e : Enemy) (d : ℚ) :
    (if c = true then takeDamage e d else e).speed = e.speed := by
  by_cases hc : c = true <;> simp [hc, takeDamage]

/-- C9: an area projectile carries no on-hit ability (`createProjectile`
attaches `ability` only to single-target projectiles), and `explode`
damages every living enemy within the blast radius (inclusive) while
leaving every enemy's status-effect map and speed untouched — the enemy
outcome does not depend on the projectile's `ability` field at all, even
when the firing tower's stats define a slow ability. -/
theorem c9_aoe_no_status (t : Tower) (target : Enemy)
    (enemies : List Enemy) (dd : List (String × ℚ))
    (h : t.type = TowerType.aoe) :
    (createProjectile t target).ability = none ∧
    ((explode (createProjectile t target) enemies dd).1).map
        Enemy.statusEffects = enemies.map Enemy.statusEffects ∧
    ((explode (createProjectile t target) enemies dd).1).map Enemy.speed
      = enemies.map Enemy.speed ∧
    (∀ (p : Projectile) (ab : Option Ability),
      (explode { p with ability := ab } enemies dd).1
        = (explode p enemies dd).1) ∧
    (∀ i e, enemies.get? i = some e →
      ((explode (createProjectile t target) enemies dd).1).get? i
        = some (if (e.isAlive && inRangeQ t.x t.y e.x e.y
              (createProjectile t target).aoeRadius) = true
            then takeDamage e (createProjectile t target).damage else e)) := by
  have hcp : createProjectile t target =
      { x := t.x, y := t.y, damage := t.stats.dmg.getD 0, towerId := t.id
        towerType := t.type, target := none
        targetPos := some (target.x, target.y)
        aoeRadius :=
          match t.stats.aoe_radius with
          | some v => if v = 0 then 50 else v
          | none => 50
        ability := none, active := true, lifetime := 0 } := by
    unfold createProjectile
    rw [if_pos h]
  refine ⟨?_, ?_, ?_, ?_, ?_⟩
  · rw [hcp]
  · simp only [explode]
    rw [List.map_map]
    exact List.map_congr_left (fun e _ => statusEffects_damage_ite _ e _)
  · simp only [explode]
    rw [List.map_map]
    exact List.map_congr_left (fun e _ => speed_damage_ite _ e _)
  · intro p ab
    rfl
  · intro i e he
    rw [hcp]
    simp only [explode]
    rw [List.get?_map, he]
    rfl

theorem c9_witness :
    tAoe.stats.ability = some ⟨30⟩ ∧
    (createProjectile tAoe eFar).ability = none ∧
    ((explode (createProjectile tAoe eFar) [eFar] []).1).map
        Enemy.statusEffects = [eFar].map Enemy.statusEffects := by
  have h := c9_aoe_no_status tAoe eFar [eFar] [] rfl
  refine ⟨?_, h.1, h.2.1⟩
  norm_num +decide [tAoe, mkTower, applyStats, calculateBuffedStats,
    calcBuffedCore, buffStep, statsOfLevel, tdAoe, settings0, mulIfTruthy]

end TATD
